import Mathlib

/-!
Verification of the PowerDNS `ArgvMap` configuration registry
(`pdns/arguments.cc`) against its natural-language specification.

Strings are modelled as lists of characters (`Str`), C++ `std::map` as
association lists kept sorted by key (insertion via `mapInsert`), and
exceptions as `Except ArgException`.
-/

set_option maxHeartbeats 1000000
set_option maxRecDepth 100000

namespace PdnsArgs

/-- Character-list model of `std::string`. -/
abbrev Str := List Char

/-- Conversion from Lean string literals, for concrete test inputs. -/
def str (s : String) : Str := s.data

/-- `std::isspace` in the classic "C" locale. -/
def isSpaceChar (c : Char) : Bool :=
  c = ' ' || c = '\t' || c = '\n' || c = '\x0b' || c = '\x0c' || c = '\r'

/-- `boost::trim_right`: drop trailing whitespace. -/
def trimRight (s : Str) : Str :=
  (s.reverse.dropWhile isSpaceChar).reverse

/-- `boost::trim_left`: drop leading whitespace. -/
def trimLeft (s : Str) : Str := s.dropWhile isSpaceChar

/-- `boost::trim`: drop whitespace at both ends. -/
def trim (s : Str) : Str := trimLeft (trimRight s)

/-- `std::string::find(pat)`: index of the first occurrence of the
substring `pat`, if any. -/
def findSub (s pat : Str) : Option Nat :=
  if pat.isPrefixOf s then some 0
  else
    match s with
    | [] => none
    | _ :: t => (findSub t pat).map (· + 1)

/-- `find_first_not_of(delims)` followed by the conditional
`substr(pos)` of the source: drop the longest prefix of characters
drawn from `delims`, but leave the string unchanged when every
character is in `delims` (the `pos == npos` case of the source). -/
def stripLeadingIn (delims : Str) (s : Str) : Str :=
  if s.all (fun c => c ∈ delims) then s else s.dropWhile (fun c => c ∈ delims)

/-- `stringtok` (declared in `misc.hh`, outside the provided sources).
Modelled from the spec: tokenize on any of the delimiter characters,
dropping empty tokens. -/
def stringtok (s delims : Str) : List Str :=
  (s.splitOnP (fun c => c ∈ delims)).filter (· ≠ [])

/-- Lexicographic strict order on character lists, by code point
(the order of C++ `std::string::operator<` on ASCII data). -/
def strLt : Str → Str → Bool
  | [], [] => false
  | [], _ :: _ => true
  | _ :: _, [] => false
  | a :: as, b :: bs => if a < b then true else if b < a then false else strLt as bs

/-- Lookup in an association list (`std::map::find`). -/
def mapFind : List (Str × Str) → Str → Option Str
  | [], _ => none
  | (k, v) :: rest, key => if k = key then some v else mapFind rest key

/-- Insert/overwrite in a key-sorted association list
(`std::map::operator[] =`); keeps the list sorted by `strLt`. -/
def mapInsert : List (Str × Str) → Str → Str → List (Str × Str)
  | [], k, v => [(k, v)]
  | (k', v') :: rest, k, v =>
    if strLt k k' then (k, v) :: (k', v') :: rest
    else if k = k' then (k, v) :: rest
    else (k', v') :: mapInsert rest k v

/-- Membership-only model of `std::set<string>::insert`. -/
def setInsert (x : Str) (s : List Str) : List Str :=
  if x ∈ s then s else x :: s

/-- The configuration-exception taxonomy of `ArgException`,
distinguished by the throwing condition. -/
inductive ArgException where
  | notFound (arg : Str)
  | unknownSetting (var : Str)
  | incrementalWithoutParent (var : Str)
  | malformedValue (arg : Str) (val : Str)
  | missingDefault (var : Str)
  | notRegularFile (name : Str)
  deriving DecidableEq, Repr

/-- The registry state of `class ArgvMap`. -/
structure ArgvMap where
  d_params : List (Str × Str)
  helpmap : List (Str × Str)
  d_typeMap : List (Str × Str)
  defaultmap : List (Str × Str)
  d_unknownParams : List (Str × Str)
  d_cleared : List Str
  d_cmds : List Str
  deriving DecidableEq, Repr

/-- The name of the self-registered setting. -/
def ignoreKey : Str := str "ignore-unknown-settings"

/-- Read of `d_params[k]` in a context where the C++ `operator[]`
would default-construct an empty string; the implicit insertion is
unobservable here because every read site either already guarantees
the key (the constructor registers `ignore-unknown-settings`) or only
the value is used. -/
def paramGet (st : ArgvMap) (k : Str) : Str := (mapFind st.d_params k).getD []

def ArgvMap.parmIsset (st : ArgvMap) (var : Str) : Bool :=
  (mapFind st.d_params var).isSome

/-- `ArgvMap::set(var, help)` followed by an assignment of `value`
(the declaration idiom `set(var, help) = value;`). -/
def declareParam (st : ArgvMap) (var help value : Str) : ArgvMap :=
  { st with
    helpmap := mapInsert st.helpmap var help
    d_typeMap := mapInsert st.d_typeMap var (str "Parameter")
    d_params := mapInsert st.d_params var value }

/-- `ArgvMap::setDefault`. -/
def setDefault (st : ArgvMap) (var value : Str) : ArgvMap :=
  if (mapFind st.defaultmap var).isSome then st
  else { st with defaultmap := mapInsert st.defaultmap var value }

/-- The `ArgvMap` constructor: registers `ignore-unknown-settings`
with an empty value. -/
def ArgvMap.init : ArgvMap :=
  declareParam
    { d_params := [], helpmap := [], d_typeMap := [], defaultmap := []
      d_unknownParams := [], d_cleared := [], d_cmds := [] }
    ignoreKey (str "Configuration settings to ignore if they are unknown") []

/-- The outcome of the four-branch argument recognizer at the top of
`ArgvMap::parseOne` (lines 387–409): a `(var, val, incremental)` triple
or a bare command token. -/
inductive ParsedArg where
  | setting (var val : Str) (incremental : Bool)
  | command
  deriving DecidableEq, Repr

/-- The recognizer at the top of `ArgvMap::parseOne`: `--name+=value`,
`--name=value`, `--name`, `-name` (length > 1), else a command. -/
def recognizeArg (arg : Str) : ParsedArg :=
  if (str "--").isPrefixOf arg then
    match findSub arg (str "+=") with
    | some pos => .setting ((arg.drop 2).take (pos - 2)) (arg.drop (pos + 2)) true
    | none =>
      match findSub arg (str "=") with
      | some pos => .setting ((arg.drop 2).take (pos - 2)) (arg.drop (pos + 1)) false
      | none => .setting (arg.drop 2) [] false
  else if arg.head? = some '-' ∧ arg.length > 1 then
    .setting (arg.drop 1) [] false
  else
    .command

/-- The body of `ArgvMap::parseOne` after the recognizer (lines
411–453), applied to the already-trimmed name. `warnIfDeprecated` only
logs, so it does not appear. -/
def applySetting (st : ArgvMap) (var val₀ parseOnly : Str) (incremental lax : Bool) :
    Except ArgException ArgvMap :=
  if var ≠ [] ∧ (parseOnly = [] ∨ var = parseOnly) then
    let val := stripLeadingIn (str " \t") val₀
    match mapFind st.d_params var with
    | some cur =>
      if incremental then
        if cur = [] then
          if var ∈ st.d_cleared then
            .ok { st with d_params := mapInsert st.d_params var val }
          else
            .error (.incrementalWithoutParent var)
        else
          .ok { st with d_params := mapInsert st.d_params var (cur ++ str ", " ++ val) }
      else
        .ok { st with
                d_params := mapInsert st.d_params var val
                d_cleared := setInsert var st.d_cleared }
    | none =>
      let parts := stringtok (paramGet st ignoreKey) (str " ,\t\n\r")
      if var ∈ parts then
        .ok { st with d_unknownParams := mapInsert st.d_unknownParams var val }
      else if lax then
        .ok st
      else
        .error (.unknownSetting var)
  else
    .ok st

/-- `ArgvMap::parseOne(arg, parseOnly, lax)`. A command token is pushed
onto `d_cmds` and leaves `var` empty, so the body does nothing with it. -/
def parseOne (st : ArgvMap) (arg parseOnly : Str) (lax : Bool) :
    Except ArgException ArgvMap :=
  match recognizeArg arg with
  | .command =>
    applySetting { st with d_cmds := st.d_cmds ++ [arg] } [] [] parseOnly false lax
  | .setting var val incremental =>
    applySetting st (trim var) val parseOnly incremental lax

/-- The argument loop of `ArgvMap::parse`. -/
def parseLoop (lax : Bool) (st : ArgvMap) : List Str → Except ArgException ArgvMap
  | [] => .ok st
  | tok :: rest =>
    match parseOne st tok [] lax with
    | .error e => .error e
    | .ok st' => parseLoop lax st' rest

/-- `ArgvMap::parse`: reset `d_cmds` and `d_cleared`, then feed every
argument (after `argv[0]`) to `parseOne` with no filter. -/
def parse (st : ArgvMap) (argv : List Str) (lax : Bool) : Except ArgException ArgvMap :=
  parseLoop lax { st with d_cmds := [], d_cleared := [] } argv

/-- `ArgvMap::preParse`: feed to `parseOne` (with the declaration's
default arguments: empty filter, non-lax) exactly those arguments that
have `"--" ++ arg` as a string prefix. -/
def preParse (st : ArgvMap) (argv : List Str) (arg : Str) : Except ArgException ArgvMap :=
  match argv with
  | [] => .ok st
  | tok :: rest =>
    if (str "--" ++ arg).isPrefixOf tok then
      match parseOne st tok [] false with
      | .error e => .error e
      | .ok st' => preParse st' rest arg
  else preParse st rest arg

/-- `ArgvMap::isEmpty`. -/
def isEmpty (st : ArgvMap) (arg : Str) : Bool :=
  match mapFind st.d_params arg with
  | none => true
  | some v => v = []

/-- `ArgvMap::operator[]`. -/
def opIndex (st : ArgvMap) (arg : Str) : Except ArgException Str :=
  match mapFind st.d_params arg with
  | none => .error (.notFound arg)
  | some v => .ok v

def isOctDigit (c : Char) : Bool := '0' ≤ c ∧ c ≤ '7'

def isDecDigit (c : Char) : Bool := '0' ≤ c ∧ c ≤ '9'

def isHexDigitCh (c : Char) : Bool :=
  isDecDigit c ∨ ('a' ≤ c ∧ c ≤ 'f') ∨ ('A' ≤ c ∧ c ≤ 'F')

def digitValue (c : Char) : Nat :=
  if isDecDigit c then c.toNat - 48
  else if 'a' ≤ c ∧ c ≤ 'f' then c.toNat - 87
  else c.toNat - 55

def digitsValue (base : Nat) (ds : Str) : Nat :=
  ds.foldl (fun a c => a * base + digitValue c) 0

/-- Model of C `strtol(s, &end, 0)` (base auto-detected): skip leading
whitespace, optional sign, `0x`/`0X` prefix means hexadecimal, a bare
leading `0` octal, else decimal. Returns the value and whether any
conversion was performed (`end != nptr` in C). Overflow clamping to
LONG_MAX/LONG_MIN and the narrowing casts at the call sites are not
modelled; no claim exercises them. -/
def strtol0 (s : Str) : Int × Bool :=
  let s₁ := s.dropWhile isSpaceChar
  let signed : Int × Str :=
    match s₁ with
    | '-' :: r => (-1, r)
    | '+' :: r => (1, r)
    | _ => (1, s₁)
  let sign := signed.1
  match signed.2 with
  | '0' :: x :: r =>
    if (x = 'x' || x = 'X') && (match r with | c :: _ => isHexDigitCh c | [] => false) then
      (sign * digitsValue 16 (r.takeWhile isHexDigitCh), true)
    else
      -- a bare leading '0' is itself a consumed octal digit
      (sign * digitsValue 8 ((x :: r).takeWhile isOctDigit), true)
  | ['0'] => (0, true)
  | other =>
    let ds := other.takeWhile isDecDigit
    (sign * digitsValue 10 ds, ds ≠ [])

/-- `ArgvMap::asNum(arg, def)`. -/
def asNum (st : ArgvMap) (arg : Str) (dflt : Int) : Except ArgException Int :=
  match mapFind st.d_params arg with
  | none => .error (.notFound arg)
  | some v =>
    if v = [] then .ok dflt
    else
      let r := strtol0 v
      if r.1 = 0 ∧ r.2 = false then .error (.malformedValue arg v)
      else .ok r.1

/-- Reads of `helpmap[k]`, `defaultmap[k]`, `d_typeMap[k]` through the
default-constructing `operator[]` (see `paramGet`). -/
def helpGet (st : ArgvMap) (k : Str) : Str := (mapFind st.helpmap k).getD []

def defaultGet (st : ArgvMap) (k : Str) : Str := (mapFind st.defaultmap k).getD []

def typeGet (st : ArgvMap) (k : Str) : Str := (mapFind st.d_typeMap k).getD []

/-- The comment-header block emitted by `ArgvMap::formatOne`. -/
def formatHeader (var help : Str) : Str :=
  str "#################################\n# " ++ var ++ str "\t" ++ help ++ str "\n#\n"

/-- `ArgvMap::formatOne`. The source appends up to three blocks: the
header (or returns early when running, not full, and unchanged), a
`"# "` comment mark, and the `name=value` line. -/
def formatOne (running full : Bool) (var help theDefault current : Str) : Str :=
  let tail : Str :=
    (if ¬running ∨ theDefault = current then str "# " else [])
    ++ (if running then
          var ++ str "=" ++ current ++ (if full then str "\n\n" else str "\n")
        else
          var ++ str "=" ++ theDefault ++ str "\n\n")
  if ¬running ∨ full then formatHeader var help ++ tail
  else if theDefault = current then []
  else tail

/-- The `helpmap` loop of `ArgvMap::configstring`: skip Command
parameters and `ignore-unknown-settings`, fail on a missing default,
append `formatOne` otherwise. -/
def configLoop (st : ArgvMap) (running full : Bool) :
    List (Str × Str) → Except ArgException Str
  | [] => .ok []
  | (v, h) :: rest =>
    if typeGet st v = str "Command" then configLoop st running full rest
    else if v = ignoreKey then configLoop st running full rest
    else if (mapFind st.defaultmap v).isSome then
      (configLoop st running full rest).map
        (fun tail => formatOne running full v h (defaultGet st v) (paramGet st v) ++ tail)
    else
      .error (.missingDefault v)

/-- The trailing `d_unknownParams` loop of `ArgvMap::configstring`. -/
def unknownDump (running full : Bool) : List (Str × Str) → Str
  | [] => []
  | (v, val) :: rest =>
    formatOne running full v (str "unknown setting") [] val ++ unknownDump running full rest

/-- The banner comment opening a running dump (`nowTime()` is an
external capability, supplied as `now`). -/
def bannerRunning (now : Str) : Str :=
  str "# Autogenerated configuration file based on running instance (" ++ now ++ str ")\n\n"

/-- `ArgvMap::configstring(running, full)`. -/
def configstring (st : ArgvMap) (running full : Bool) (now : Str) :
    Except ArgException Str :=
  let banner :=
    if running then bannerRunning now
    else str "# Autogenerated configuration file template\n\n"
  match configLoop st running full st.helpmap with
  | .error e => .error e
  | .ok body =>
    .ok (banner
      ++ formatOne running full ignoreKey (helpGet st ignoreKey) (defaultGet st ignoreKey)
           (paramGet st ignoreKey)
      ++ body
      ++ (if running then unknownDump running full st.d_unknownParams else []))

/-- The comment-stripping step of `ArgvMap::parseFile`: truncate at
the first `#` when it is the first character or preceded by
whitespace; a first `#` that is neither leaves the line whole. -/
def commentStrip (line : Str) : Str :=
  match findSub line (str "#") with
  | none => line
  | some pos =>
    if pos = 0 || (match line.get? (pos - 1) with
                   | some c => isSpaceChar c
                   | none => false) then
      line.take pos
    else line

/-- The body of `ArgvMap::parseFile` applied to the file's physical
lines (the successive `getline` results); `acc` is the `line`
accumulator for backslash continuations. An unfinished continuation is
discarded when the file ends, as in the source loop. -/
def processLines (parseOnly : Str) (lax : Bool) :
    ArgvMap → Str → List Str → Except ArgException ArgvMap
  | st, _, [] => .ok st
  | st, acc, pline :: rest =>
    let p := trimRight pline
    if p ≠ [] ∧ p.getLast? = some '\\' then
      processLines parseOnly lax st (acc ++ p.dropLast) rest
    else
      let line₂ := stripLeadingIn (str " \t\r\n") (trimRight (commentStrip (acc ++ p)))
      match parseOne st (str "--" ++ line₂) parseOnly lax with
      | .error e => .error e
      | .ok st' => processLines parseOnly lax st' [] rest

/-- `std::getline` splitting of a character stream into physical
lines: a final fragment without a newline is a line, a trailing
newline does not open an empty final line. -/
def splitPhysLines : Str → List Str
  | [] => []
  | '\n' :: rest => [] :: splitPhysLines rest
  | c :: rest =>
    match splitPhysLines rest with
    | [] => [[c]]
    | l :: ls => (c :: l) :: ls

/-- A directory entry as `readdir` plus the `stat` regular-file test
deliver it (the filesystem is an external capability). -/
structure DirEnt where
  name : Str
  isRegularFile : Bool
  deriving DecidableEq, Repr

def toLowerAscii (c : Char) : Char :=
  if 'A' ≤ c ∧ c ≤ 'Z' then Char.ofNat (c.toNat + 32) else c

/-- Modelled from the spec: `CIStringComparePOSIX` (declared outside
the provided sources) is the POSIX-locale-independent, ASCII
case-fold, lexicographic less-than used to sort include files. -/
def ciPosixLess (a b : Str) : Bool := strLt (a.map toLowerAscii) (b.map toLowerAscii)

def insertCI (x : Str) : List Str → List Str
  | [] => [x]
  | y :: ys => if ciPosixLess x y then x :: y :: ys else y :: insertCI x ys

/-- `std::sort(vec, CIStringComparePOSIX())` (as an insertion sort;
the claims only observe the resulting order). -/
def sortCI (l : List Str) : List Str := l.foldr insertCI []

/-- The `readdir` loop of `ArgvMap::gatherIncludes` over the directory
entries in readdir order: skip names starting with a dot, require a
suffix match (`boost::ends_with`, a case-sensitive comparison) to be a
regular file, collect `directory + "/" + name`. -/
def gatherLoop (directory suffix : Str) : List DirEnt → Except ArgException (List Str)
  | [] => .ok []
  | e :: rest =>
    if e.name.head? = some '.' then gatherLoop directory suffix rest
    else if suffix.isSuffixOf e.name then
      if e.isRegularFile then
        (gatherLoop directory suffix rest).map ((directory ++ str "/" ++ e.name) :: ·)
      else
        .error (.notRegularFile (directory ++ str "/" ++ e.name))
    else gatherLoop directory suffix rest

/-- `ArgvMap::gatherIncludes` with the directory listing supplied as
data; the caller always passes an empty `extraConfigs`, so the result
is the sorted collected list. -/
def gatherIncludes (directory suffix : Str) (entries : List DirEnt) :
    Except ArgException (List Str) :=
  if directory = [] then .ok []
  else (gatherLoop directory suffix entries).map sortCI

/-- Sortedness in the include-file order: no later element is
case-insensitively less than an earlier adjacent one. -/
def ciSorted (l : List Str) : Prop :=
  List.Chain' (fun a b => ciPosixLess b a = false) l

/-- Case-insensitive ends-with, following the claim's words ("ends
with '.conf' under case-insensitive comparison"); used to compare the
claimed file set with the one the source computes. -/
def ciEndsWith (s suffix : Str) : Bool :=
  (suffix.map toLowerAscii).isSuffixOf (s.map toLowerAscii)

/-- Follows the amended C1 claim's words: in a running diff dump a
declared parameter is rendered exactly when its current value differs
from its default, as an uncommented `name=value` line. -/
def specDiffLine (st : ArgvMap) (v : Str) : Str :=
  if defaultGet st v = paramGet st v then []
  else v ++ str "=" ++ paramGet st v ++ str "\n"

/-- Follows the amended C1 claim's words: in a running full dump every
declared non-Command parameter is rendered under its help header, with
a leading `"# "` exactly when its current value equals its default. -/
def specFullLine (st : ArgvMap) (v h : Str) : Str :=
  formatHeader v h
  ++ (if defaultGet st v = paramGet st v then str "# " else [])
  ++ v ++ str "=" ++ paramGet st v ++ str "\n\n"

/-- The diff-dump body the amended C1 claim describes, over the
declared (help-registered) non-Command parameters. -/
def specDiffBody (st : ArgvMap) : Str :=
  (st.helpmap.map (fun p =>
    if typeGet st p.1 = str "Command" ∨ p.1 = ignoreKey then []
    else specDiffLine st p.1)).flatten

/-- The full-dump body the amended C1 claim describes. -/
def specFullBody (st : ArgvMap) : Str :=
  (st.helpmap.map (fun p =>
    if typeGet st p.1 = str "Command" ∨ p.1 = ignoreKey then []
    else specFullLine st p.1 p.2)).flatten

/-- Concatenation of lines, each terminated by a newline (the shape
in which the running dump is emitted). -/
def joinLines (L : List Str) : Str := (L.map (· ++ str "\n")).flatten

/-- The banner comment of a running dump without its terminating
newlines (one physical line when `now` holds no newline). -/
def bannerLine (now : Str) : Str :=
  str "# Autogenerated configuration file based on running instance (" ++ now ++ str ")"

/-- A rendered `name=value` pair that survives the file-loader line
processing unchanged and is recognized back as a plain assignment of
`c` to `v`: no trailing whitespace or backslash, no commenting `#`,
no leading whitespace, no `+=`, a nonempty trimmed name. -/
def rtLineOk (v c : Str) : Prop :=
  v ≠ []
  ∧ trim v = v
  ∧ '\n' ∉ v ++ c
  ∧ trimRight (v ++ str "=" ++ c) = v ++ str "=" ++ c
  ∧ (v ++ str "=" ++ c).getLast? ≠ some '\\'
  ∧ commentStrip (v ++ str "=" ++ c) = v ++ str "=" ++ c
  ∧ stripLeadingIn (str " \t\r\n") (v ++ str "=" ++ c) = v ++ str "=" ++ c
  ∧ stripLeadingIn (str " \t") c = c
  ∧ recognizeArg (str "--" ++ (v ++ str "=" ++ c)) = .setting v c false

instance rtLineOkDec (v c : Str) : Decidable (rtLineOk v c) := by
  rw [rtLineOk]
  infer_instance

/-- The `name=value` pairs a running diff dump renders, in dump
order: the `ignore-unknown-settings` line when changed, then every
changed declared non-Command parameter, then every nonempty
unknown-but-tolerated parameter. -/
def rtPairs (st : ArgvMap) : List (Str × Str) :=
  (if defaultGet st ignoreKey = paramGet st ignoreKey then []
   else [(ignoreKey, paramGet st ignoreKey)])
  ++ st.helpmap.filterMap (fun p =>
      if typeGet st p.1 = str "Command" ∨ p.1 = ignoreKey
          ∨ defaultGet st p.1 = paramGet st p.1 then none
      else some (p.1, paramGet st p.1))
  ++ st.d_unknownParams.filterMap (fun p => if p.2 = [] then none else some p)

/-- The physical `name=value` lines of a running diff dump. -/
def rtLines (st : ArgvMap) : List Str :=
  (rtPairs st).map (fun q => q.1 ++ str "=" ++ q.2)

/-! Concrete registries and directory listings used as test inputs. -/

/-- Registry with parameters `a`, `b`, `c` declared with empty values. -/
def stateABC : ArgvMap :=
  declareParam
    (declareParam (declareParam ArgvMap.init (str "a") (str "help a") [])
      (str "b") (str "help b") [])
    (str "c") (str "help c") []

/-- Registry with `x` (current `1`, default `1`: unchanged) and `y`
(current `2`, default `1`: changed), both with registered defaults. -/
def stateXY : ArgvMap :=
  setDefault
    (setDefault
      (declareParam (declareParam ArgvMap.init (str "x") (str "hx") (str "1"))
        (str "y") (str "hy") (str "2"))
      (str "x") (str "1"))
    (str "y") (str "1")

/-- Registry with `x` declared, empty, uncleared. -/
def stateX : ArgvMap := declareParam ArgvMap.init (str "x") (str "help x") []

/-- Registry whose `ignore-unknown-settings` value is `foo,bar`. -/
def stateIgn : ArgvMap :=
  { ArgvMap.init with
      d_params := mapInsert ArgvMap.init.d_params ignoreKey (str "foo,bar") }

/-- Registry holding the accessor test values `"0"`, `"abc"`, `""`. -/
def stateC7 : ArgvMap :=
  declareParam
    (declareParam (declareParam ArgvMap.init (str "p0") (str "h0") (str "0"))
      (str "pa") (str "ha") (str "abc"))
    (str "pe") (str "he") []

/-- Registry with `b` declared (empty value, empty default): the base
state for the round-trip counterexample. -/
def stateRT0 : ArgvMap :=
  setDefault (declareParam ArgvMap.init (str "b") (str "hb") []) (str "b") []

/-- Registry with `b` declared with current value `3` and default
empty: one changed parameter. -/
def stateRTW : ArgvMap :=
  setDefault (declareParam ArgvMap.init (str "b") (str "hb") (str "3")) (str "b") []

/-- Directory listing with a regular file whose name matches `.conf`
only case-insensitively, a regular hidden `.conf` file, and a regular
`.conf` file. -/
def entriesCex : List DirEnt :=
  [⟨str "A.CONF", true⟩, ⟨str ".hidden.conf", true⟩, ⟨str "b.conf", true⟩]

/-- Directory listing with the spec's ordering example. -/
def entriesOrd : List DirEnt :=
  [⟨str "2-b.conf", true⟩, ⟨str "10-a.conf", true⟩, ⟨str "notes.txt", true⟩]

/-! Helper lemmas about the association-list maps. -/

theorem strLt_irrefl (s : Str) : strLt s s = false := by
  induction s with
  | nil => rfl
  | cons c rest ih => simp [strLt, ih]

theorem mapFind_mapInsert_self (m : List (Str × Str)) (k v : Str) :
    mapFind (mapInsert m k v) k = some v := by
  induction m with
  | nil => simp [mapInsert, mapFind]
  | cons p rest ih =>
    obtain ⟨k', v'⟩ := p
    by_cases h1 : strLt k k' = true
    · simp [mapInsert, h1, mapFind]
    · by_cases h2 : k = k'
      · subst h2
        simp [mapInsert, h1, mapFind, strLt_irrefl]
      · simp [mapInsert, h1, h2, mapFind, Ne.symm h2, ih]

theorem mapFind_mapInsert_ne (m : List (Str × Str)) (k v k₂ : Str) (h : k₂ ≠ k) :
    mapFind (mapInsert m k v) k₂ = mapFind m k₂ := by
  induction m with
  | nil => simp [mapInsert, mapFind, Ne.symm h]
  | cons p rest ih =>
    obtain ⟨k', v'⟩ := p
    by_cases h1 : strLt k k' = true
    · simp [mapInsert, h1, mapFind, Ne.symm h]
    · by_cases h2 : k = k'
      · subst h2
        simp [mapInsert, h1, mapFind, Ne.symm h]
      · by_cases h3 : k' = k₂
        · subst h3
          by_cases h4 : strLt k k' = true <;> simp [mapInsert, h2, h4, mapFind, Ne.symm h2]
        · by_cases h4 : strLt k k' = true <;>
            simp [mapInsert, h2, h4, mapFind, h3, ih, Ne.symm h]

theorem mem_setInsert_self (x : Str) (s : List Str) : x ∈ setInsert x s := by
  by_cases h : x ∈ s <;> simp [setInsert, h]

/-! Theorems for the claims. -/

/-- C6: `parseFile` line processing: a right-trimmed line ending in a
backslash is continued into the next physical line with the backslash
removed (`a=1\` then `2` gives `a = "12"`); a `#` that is preceded by
whitespace starts a comment (`b=3 # comment` gives `b = "3"`); a `#`
not preceded by whitespace is kept (`c=3#notacomment` gives
`c = "3#notacomment"`). -/
theorem c6_parsefile_lines :
    (processLines [] false stateABC []
        [str "a=1\\", str "2", str "b=3 # comment", str "c=3#notacomment"]).map
      (fun st => (mapFind st.d_params (str "a"), mapFind st.d_params (str "b"),
                  mapFind st.d_params (str "c")))
      = .ok (some (str "12"), some (str "3"), some (str "3#notacomment")) := by
  rfl

/-- C9: for a name never declared or assigned, `isEmpty` returns
`true` (it is a total function: it never throws), while `operator[]`
and the typed accessor `asNum` fail with NotFound on that same name. -/
theorem c9_isempty_notfound (st : ArgvMap) (name : Str) (d : Int)
    (h : mapFind st.d_params name = none) :
    isEmpty st name = true
    ∧ opIndex st name = .error (.notFound name)
    ∧ asNum st name d = .error (.notFound name) := by
  refine ⟨?_, ?_, ?_⟩ <;> simp [isEmpty, opIndex, asNum, h]

/-- C9 witness: the fresh registry knows nothing about `nosuch`. -/
theorem c9_witness :
    isEmpty ArgvMap.init (str "nosuch") = true
    ∧ opIndex ArgvMap.init (str "nosuch") = .error (.notFound (str "nosuch"))
    ∧ asNum ArgvMap.init (str "nosuch") 7 = .error (.notFound (str "nosuch")) :=
  c9_isempty_notfound ArgvMap.init (str "nosuch") 7 (by decide)

/-- C7: `asNum` returns 0 for a stored `"0"`, fails with
MalformedValue for a stored `"abc"` (parsed as zero with nothing
consumed), returns the caller-supplied default for a stored empty
value, and fails with NotFound for an undeclared name. -/
theorem c7_asnum (st : ArgvMap) (n0 na ne nm : Str) (d : Int)
    (h0 : mapFind st.d_params n0 = some (str "0"))
    (ha : mapFind st.d_params na = some (str "abc"))
    (he : mapFind st.d_params ne = some [])
    (hm : mapFind st.d_params nm = none) :
    asNum st n0 d = .ok 0
    ∧ asNum st na d = .error (.malformedValue na (str "abc"))
    ∧ asNum st ne d = .ok d
    ∧ asNum st nm d = .error (.notFound nm) := by
  refine ⟨?_, ?_, ?_, ?_⟩
  · simp only [asNum, h0]
    rw [if_neg (by decide), if_neg (by decide)]
    rfl
  · simp only [asNum, ha]
    rw [if_neg (by decide), if_pos (by decide)]
  · simp [asNum, he]
  · simp [asNum, hm]

/-- C7 witness: a registry holding `"0"`, `"abc"` and `""`. -/
theorem c7_witness :
    asNum stateC7 (str "p0") 7 = .ok 0
    ∧ asNum stateC7 (str "pa") 7 = .error (.malformedValue (str "pa") (str "abc"))
    ∧ asNum stateC7 (str "pe") 7 = .ok 7
    ∧ asNum stateC7 (str "pm") 7 = .error (.notFound (str "pm")) :=
  c7_asnum stateC7 (str "p0") (str "pa") (str "pe") (str "pm") 7
    (by decide) (by decide) (by decide) (by decide)

/-- C10: `gatherIncludes` silently skips any entry whose name starts
with a dot — even a regular file matching the suffix — before the
regular-file check, while a non-dot entry matching the suffix that is
not a regular file is fatal. -/
theorem c10_dotfiles (dir suffix : Str) (e : DirEnt) (rest : List DirEnt)
    (hdot : e.name.head? = some '.') :
    gatherIncludes dir suffix (e :: rest) = gatherIncludes dir suffix rest
    ∧ ∀ e' rest', e'.name.head? ≠ some '.' → suffix.isSuffixOf e'.name = true →
        e'.isRegularFile = false → dir ≠ [] →
        gatherIncludes dir suffix (e' :: rest')
          = .error (.notRegularFile (dir ++ str "/" ++ e'.name)) := by
  constructor
  · by_cases hd : dir = [] <;> simp [gatherIncludes, gatherLoop, hd, hdot]
  · intro e' rest' h1 h2 h3 h4
    simp [gatherIncludes, gatherLoop, h1, h2, h3, h4, Except.map]

/-- C4: an incremental assignment (`--x+=a`) to a declared name with
empty stored value and no clearing in the current invocation fails
with IncrementalWithoutParent on the first increment; preceded by a
direct empty assignment (`--x=`, which marks `x` cleared), the two
increments succeed and leave `x = "a, b"`. -/
theorem c4_incremental (st : ArgvMap) (x : Str) (lax : Bool)
    (hne : x ≠ [])
    (htrim : trim x = x)
    (hra : recognizeArg (str "--" ++ x ++ str "+=a") = .setting x (str "a") true)
    (hrb : recognizeArg (str "--" ++ x ++ str "+=b") = .setting x (str "b") true)
    (hrc : recognizeArg (str "--" ++ x ++ str "=") = .setting x [] false)
    (hdecl : mapFind st.d_params x = some [])
    (hclr : x ∉ st.d_cleared) :
    parseOne st (str "--" ++ x ++ str "+=a") [] lax
      = .error (.incrementalWithoutParent x)
    ∧ ∃ st₁ st₂ st₃,
        parseOne st (str "--" ++ x ++ str "=") [] lax = .ok st₁
        ∧ parseOne st₁ (str "--" ++ x ++ str "+=a") [] lax = .ok st₂
        ∧ parseOne st₂ (str "--" ++ x ++ str "+=b") [] lax = .ok st₃
        ∧ mapFind st₃.d_params x = some (str "a, b") := by
  have ea : stripLeadingIn (str " \t") (str "a") = str "a" := by decide
  have eb : stripLeadingIn (str " \t") (str "b") = str "b" := by decide
  have e0 : stripLeadingIn (str " \t") ([] : Str) = [] := by decide
  constructor
  · simp only [parseOne, hra, htrim]
    simp [applySetting, hne, hdecl, hclr]
  · have h1 : parseOne st (str "--" ++ x ++ str "=") [] lax
        = .ok { st with d_params := mapInsert st.d_params x []
                        d_cleared := setInsert x st.d_cleared } := by
      simp only [parseOne, hrc, htrim]
      simp [applySetting, hne, hdecl, e0]
    have h2 : parseOne
        { st with d_params := mapInsert st.d_params x []
                  d_cleared := setInsert x st.d_cleared }
        (str "--" ++ x ++ str "+=a") [] lax
        = .ok { st with d_params := mapInsert (mapInsert st.d_params x []) x (str "a")
                        d_cleared := setInsert x st.d_cleared } := by
      simp only [parseOne, hra, htrim]
      simp [applySetting, hne, ea, mapFind_mapInsert_self, mem_setInsert_self]
    have h3 : parseOne
        { st with d_params := mapInsert (mapInsert st.d_params x []) x (str "a")
                  d_cleared := setInsert x st.d_cleared }
        (str "--" ++ x ++ str "+=b") [] lax
        = .ok { st with
                  d_params := mapInsert (mapInsert (mapInsert st.d_params x []) x (str "a"))
                                x (str "a, b")
                  d_cleared := setInsert x st.d_cleared } := by
      simp only [parseOne, hrb, htrim]
      simp [applySetting, hne, eb, mapFind_mapInsert_self]
      rfl
    exact ⟨_, _, _, h1, h2, h3, mapFind_mapInsert_self _ _ _⟩

/-- C4 witness: the scenario at the declared, empty, uncleared `x`. -/
theorem c4_witness :
    parseOne stateX (str "--x+=a") [] false
      = .error (.incrementalWithoutParent (str "x"))
    ∧ ∃ st₁ st₂ st₃,
        parseOne stateX (str "--x=") [] false = .ok st₁
        ∧ parseOne st₁ (str "--x+=a") [] false = .ok st₂
        ∧ parseOne st₂ (str "--x+=b") [] false = .ok st₃
        ∧ mapFind st₃.d_params (str "x") = some (str "a, b") :=
  c4_incremental stateX (str "x") false (by decide) (by decide) (by decide)
    (by decide) (by decide) (by decide) (by decide)

/-- C5: an assignment to an undeclared name is recorded in
`d_unknownParams` when the name is a member of the comma/space/tab/
newline/carriage-return-tokenized `ignore-unknown-settings` value;
otherwise it fails with UnknownSetting in non-lax mode and is silently
ignored (registry returned unchanged) in lax mode. -/
theorem c5_unknown (st : ArgvMap) (v w : Str) (lax : Bool)
    (hne : v ≠ [])
    (htrim : trim v = v)
    (hw : stripLeadingIn (str " \t") w = w)
    (hrec : recognizeArg (str "--" ++ v ++ str "=" ++ w) = .setting v w false)
    (hundecl : mapFind st.d_params v = none) :
    (v ∈ stringtok (paramGet st ignoreKey) (str " ,\t\n\r") →
       parseOne st (str "--" ++ v ++ str "=" ++ w) [] lax
         = .ok { st with d_unknownParams := mapInsert st.d_unknownParams v w })
    ∧ (v ∉ stringtok (paramGet st ignoreKey) (str " ,\t\n\r") →
       parseOne st (str "--" ++ v ++ str "=" ++ w) [] false
         = .error (.unknownSetting v))
    ∧ (v ∉ stringtok (paramGet st ignoreKey) (str " ,\t\n\r") →
       parseOne st (str "--" ++ v ++ str "=" ++ w) [] true = .ok st) := by
  refine ⟨?_, ?_, ?_⟩ <;> intro hm <;>
    · simp only [parseOne, hrec, htrim]
      simp [applySetting, hne, hundecl, hw, hm]

/-- C5 witness: with `ignore-unknown-settings = "foo,bar"`, `--foo=1`
is tolerated and recorded, `--baz=1` fails non-lax and is ignored
lax. -/
theorem c5_witness :
    parseOne stateIgn (str "--foo=1") [] false
      = .ok { stateIgn with
                d_unknownParams := mapInsert stateIgn.d_unknownParams (str "foo") (str "1") }
    ∧ parseOne stateIgn (str "--baz=1") [] false = .error (.unknownSetting (str "baz"))
    ∧ parseOne stateIgn (str "--baz=1") [] true = .ok stateIgn := by
  refine ⟨?_, ?_, ?_⟩
  · exact (c5_unknown stateIgn (str "foo") (str "1") false (by decide) (by decide)
      (by decide) (by decide) (by decide)).1 (by decide)
  · exact (c5_unknown stateIgn (str "baz") (str "1") false (by decide) (by decide)
      (by decide) (by decide) (by decide)).2.1 (by decide)
  · exact (c5_unknown stateIgn (str "baz") (str "1") true (by decide) (by decide)
      (by decide) (by decide) (by decide)).2.2 (by decide)

/-- C3 counterexample: the claim says an argument whose parameter name
merely has `arg` as a prefix — `--include-dirs=x` when `arg` is
`include-dir` — leaves the registry unchanged and raises no error;
on the fresh registry, `preParse` in fact raises UnknownSetting for
`include-dirs`, because its token filter is a string-prefix test and
the match is then parsed with no name filter. -/
theorem c3_counterexample :
    preParse ArgvMap.init [str "--include-dirs=x"] (str "include-dir")
      = .error (.unknownSetting (str "include-dirs")) := by rfl

/-- C3 (amended): `preParse` hands every token with `"--" ++ arg` as a
string prefix to the full parser with no name filter (so a token
naming an undeclared, un-ignore-listed extension of `arg` raises
UnknownSetting), and skips exactly the tokens without that prefix. -/
theorem c3_amended (st : ArgvMap) (arg ext w : Str) (rest : List Str)
    (hne : arg ++ ext ≠ [])
    (htrim : trim (arg ++ ext) = arg ++ ext)
    (hrec : recognizeArg (str "--" ++ arg ++ ext ++ str "=" ++ w)
              = .setting (arg ++ ext) w false)
    (hundecl : mapFind st.d_params (arg ++ ext) = none)
    (hnotign : arg ++ ext ∉ stringtok (paramGet st ignoreKey) (str " ,\t\n\r")) :
    preParse st ((str "--" ++ arg ++ ext ++ str "=" ++ w) :: rest) arg
      = .error (.unknownSetting (arg ++ ext))
    ∧ ∀ (tok : Str) (rest' : List Str),
        (str "--" ++ arg).isPrefixOf tok = false →
        preParse st (tok :: rest') arg = preParse st rest' arg := by
  constructor
  · have hpre : (str "--" ++ arg).isPrefixOf (str "--" ++ arg ++ ext ++ str "=" ++ w)
        = true := by
      simp only [List.isPrefixOf_iff_prefix]
      have : str "--" ++ arg ++ ext ++ str "=" ++ w
          = (str "--" ++ arg) ++ (ext ++ str "=" ++ w) := by simp
      rw [this]
      exact List.prefix_append _ _
    have hparse : parseOne st (str "--" ++ arg ++ ext ++ str "=" ++ w) [] false
        = .error (.unknownSetting (arg ++ ext)) := by
      simp only [parseOne, hrec, htrim]
      simp [applySetting, hne, hundecl, hnotign]
    simp only [preParse]
    rw [if_pos hpre, hparse]
  · intro tok rest' hno
    simp [preParse, hno]

/-- C3 amended witness: the prefix-matching token `--include-dirs=x`
is parsed (and fails with UnknownSetting), a non-matching token is
skipped. -/
theorem c3_witness :
    preParse ArgvMap.init
        ((str "--" ++ str "include-dir" ++ str "s" ++ str "=" ++ str "x") :: []) (str "include-dir")
      = .error (.unknownSetting (str "include-dir" ++ str "s"))
    ∧ ∀ (tok : Str) (rest' : List Str),
        (str "--" ++ str "include-dir").isPrefixOf tok = false →
        preParse ArgvMap.init (tok :: rest') (str "include-dir")
          = preParse ArgvMap.init rest' (str "include-dir") :=
  c3_amended ArgvMap.init (str "include-dir") (str "s") (str "x") []
    (by decide) (by decide) (by decide) (by decide) (by decide)

/-- C10 witness: `.hidden.conf` (a regular file ending in `.conf`) is
skipped, and a non-regular `sub.conf` entry is fatal. -/
theorem c10_witness :
    gatherIncludes (str "dir") (str ".conf") (⟨str ".hidden.conf", true⟩ :: entriesOrd)
      = gatherIncludes (str "dir") (str ".conf") entriesOrd
    ∧ gatherIncludes (str "dir") (str ".conf") [⟨str "sub.conf", false⟩]
      = .error (.notRegularFile (str "dir/sub.conf")) := by
  have h := c10_dotfiles (str "dir") (str ".conf") ⟨str ".hidden.conf", true⟩ entriesOrd
    (by decide)
  exact ⟨h.1, h.2 ⟨str "sub.conf", false⟩ [] (by decide) (by decide) (by decide) (by decide)⟩

/-! Lemmas for the dump shape (C1). -/

theorem formatOne_running_diff (v h d c : Str) :
    formatOne true false v h d c
      = if d = c then [] else v ++ str "=" ++ c ++ str "\n" := by
  by_cases hdc : d = c <;> simp [formatOne, hdc]

theorem formatOne_running_full (v h d c : Str) :
    formatOne true true v h d c
      = formatHeader v h ++ (if d = c then str "# " else [])
          ++ v ++ str "=" ++ c ++ str "\n\n" := by
  by_cases hdc : d = c <;> simp [formatOne, hdc]

theorem formatOne_running (full : Bool) (v h d c : Str) :
    formatOne true full v h d c
      = if full then
          formatHeader v h ++ (if d = c then str "# " else [])
            ++ v ++ str "=" ++ c ++ str "\n\n"
        else
          if d = c then [] else v ++ str "=" ++ c ++ str "\n" := by
  cases full
  · simpa using formatOne_running_diff v h d c
  · simpa using formatOne_running_full v h d c

theorem configLoop_running (st : ArgvMap) (full : Bool) (l : List (Str × Str))
    (hdef : ∀ p ∈ l, typeGet st p.1 ≠ str "Command" → p.1 ≠ ignoreKey →
      (mapFind st.defaultmap p.1).isSome = true) :
    configLoop st true full l
      = .ok ((l.map (fun p =>
          if typeGet st p.1 = str "Command" ∨ p.1 = ignoreKey then []
          else if full then specFullLine st p.1 p.2 else specDiffLine st p.1)).flatten) := by
  induction l with
  | nil => rfl
  | cons p rest ih =>
    obtain ⟨v, h⟩ := p
    have hrest : ∀ q ∈ rest, typeGet st q.1 ≠ str "Command" → q.1 ≠ ignoreKey →
        (mapFind st.defaultmap q.1).isSome = true :=
      fun q hq => hdef q (List.mem_cons_of_mem _ hq)
    by_cases hcmd : typeGet st v = str "Command"
    · simp [configLoop, hcmd, ih hrest]
    · by_cases hign : v = ignoreKey
      · simp [configLoop, hcmd, hign, ih hrest]
      · have hsome : (mapFind st.defaultmap v).isSome = true :=
          hdef (v, h) (List.mem_cons_self _ _) hcmd hign
        simp [configLoop, hcmd, hign, hsome, ih hrest, Except.map,
          formatOne_running, specDiffLine, specFullLine]

/-- C1 (amended): with every declared non-Command parameter holding a
registered default, `configstring(running := true, full := false)`
renders exactly the parameters whose current value differs from their
default, as uncommented `name=value` lines, while
`configstring(running := true, full := true)` renders every declared
non-Command parameter under its help header, with a leading `"# "`
exactly on the lines whose current value equals the default (the
claim had the two `full` modes swapped). -/
theorem c1_amended (st : ArgvMap) (now : Str)
    (hdef : ∀ p ∈ st.helpmap, typeGet st p.1 ≠ str "Command" → p.1 ≠ ignoreKey →
      (mapFind st.defaultmap p.1).isSome = true) :
    configstring st true false now
      = .ok (bannerRunning now ++ specDiffLine st ignoreKey ++ specDiffBody st
          ++ unknownDump true false st.d_unknownParams)
    ∧ configstring st true true now
      = .ok (bannerRunning now ++ specFullLine st ignoreKey (helpGet st ignoreKey)
          ++ specFullBody st ++ unknownDump true true st.d_unknownParams) := by
  constructor
  · rw [configstring, configLoop_running st false st.helpmap hdef]
    simp [specDiffBody, specDiffLine, formatOne_running_diff, defaultGet, paramGet]
  · rw [configstring, configLoop_running st true st.helpmap hdef]
    simp [specFullBody, specFullLine, formatOne_running_full, defaultGet, paramGet]

/-- C1 amended witness: the registry with `x` unchanged and `y`
changed. -/
theorem c1_witness :
    configstring stateXY true false (str "T")
      = .ok (bannerRunning (str "T") ++ specDiffLine stateXY ignoreKey
          ++ specDiffBody stateXY ++ unknownDump true false stateXY.d_unknownParams)
    ∧ configstring stateXY true true (str "T")
      = .ok (bannerRunning (str "T") ++ specFullLine stateXY ignoreKey (helpGet stateXY ignoreKey)
          ++ specFullBody stateXY ++ unknownDump true true stateXY.d_unknownParams) :=
  c1_amended stateXY (str "T") (by decide)

/-- C1 counterexample: in `stateXY`, `x` equals its default (`1`) and
`y` differs (`2` vs `1`). The claim predicts that the full running
dump renders only `y`, and that the non-full running dump renders
both `x` (commented) and `y`. The computed dumps show the opposite:
the non-full dump contains no `x` line at all, the full dump renders
`x` (commented) alongside `y`. -/
theorem c1_counterexample :
    defaultGet stateXY (str "x") = paramGet stateXY (str "x")
    ∧ defaultGet stateXY (str "y") ≠ paramGet stateXY (str "y")
    ∧ configstring stateXY true false (str "T")
        = .ok (str "# Autogenerated configuration file based on running instance (T)\n\ny=2\n")
    ∧ configstring stateXY true true (str "T")
        = .ok (str "# Autogenerated configuration file based on running instance (T)\n\n#################################\n# ignore-unknown-settings\tConfiguration settings to ignore if they are unknown\n#\n# ignore-unknown-settings=\n\n#################################\n# x\thx\n#\n# x=1\n\n#################################\n# y\thy\n#\ny=2\n\n") := by
  exact ⟨rfl, by decide, rfl, rfl⟩

/-! Lemmas for the include-file sort (C2). -/

theorem strLt_asymm (a b : Str) (h : strLt a b = true) : strLt b a = false := by
  induction a generalizing b with
  | nil =>
    cases b with
    | nil => exact absurd h (by decide)
    | cons y ys => rfl
  | cons x xs ih =>
    cases b with
    | nil => simp [strLt] at h
    | cons y ys =>
      by_cases hxy : x < y
      · have : ¬y < x := lt_asymm hxy
        simp [strLt, hxy, this, ne_of_lt hxy]
      · by_cases hyx : y < x
        · simp [strLt, hxy, hyx] at h
        · simp only [strLt, if_neg hxy, if_neg hyx] at h
          simp [strLt, hxy, hyx, ih _ h]

theorem ciPosixLess_asymm (a b : Str) (h : ciPosixLess a b = true) :
    ciPosixLess b a = false :=
  strLt_asymm _ _ h

theorem mem_insertCI (x y : Str) (l : List Str) :
    y ∈ insertCI x l ↔ y = x ∨ y ∈ l := by
  induction l with
  | nil => simp [insertCI]
  | cons z zs ih =>
    by_cases hxz : ciPosixLess x z = true <;> simp [insertCI, hxz, ih] <;> tauto

theorem mem_sortCI (y : Str) (l : List Str) : y ∈ sortCI l ↔ y ∈ l := by
  induction l with
  | nil => simp [sortCI]
  | cons z zs ih =>
    have hz : sortCI (z :: zs) = insertCI z (sortCI zs) := rfl
    rw [hz, mem_insertCI, ih]
    simp

theorem ciSorted_insertCI (x : Str) (l : List Str) (h : ciSorted l) :
    ciSorted (insertCI x l) := by
  induction l with
  | nil => simp [insertCI, ciSorted]
  | cons y ys ih =>
    by_cases hxy : ciPosixLess x y = true
    · simp only [insertCI, if_pos hxy]
      exact List.Chain'.cons (ciPosixLess_asymm _ _ hxy) h
    · simp only [insertCI, if_neg hxy]
      have hys : ciSorted ys := (List.chain'_cons'.mp h).2
      have htail := ih hys
      rw [ciSorted, List.chain'_cons']
      refine ⟨?_, htail⟩
      intro b hb
      cases ys with
      | nil =>
        simp [insertCI] at hb
        subst hb
        exact Bool.not_eq_true _ ▸ (by simpa using hxy)
      | cons z zs =>
        by_cases hxz : ciPosixLess x z = true
        · simp [insertCI, hxz] at hb
          subst hb
          simpa using hxy
        · simp [insertCI, hxz] at hb
          subst hb
          exact (List.chain'_cons'.mp h).1 z rfl

theorem ciSorted_sortCI (l : List Str) : ciSorted (sortCI l) := by
  induction l with
  | nil => simp [sortCI, ciSorted]
  | cons z zs ih => exact ciSorted_insertCI z (sortCI zs) ih

theorem gatherLoop_ok (dir suffix : Str) (entries : List DirEnt)
    (hreg : ∀ e ∈ entries, e.name.head? ≠ some '.' →
      suffix.isSuffixOf e.name = true → e.isRegularFile = true) :
    ∃ l, gatherLoop dir suffix entries = .ok l
      ∧ ∀ p, p ∈ l ↔ ∃ e ∈ entries, e.name.head? ≠ some '.'
          ∧ suffix.isSuffixOf e.name = true ∧ p = dir ++ str "/" ++ e.name := by
  induction entries with
  | nil => exact ⟨[], rfl, by simp⟩
  | cons e rest ih =>
    have hrest : ∀ e' ∈ rest, e'.name.head? ≠ some '.' →
        suffix.isSuffixOf e'.name = true → e'.isRegularFile = true :=
      fun e' he' => hreg e' (List.mem_cons_of_mem _ he')
    obtain ⟨l, hl, hmem⟩ := ih hrest
    by_cases hdot : e.name.head? = some '.'
    · refine ⟨l, by simp [gatherLoop, hdot, hl], ?_⟩
      intro p
      rw [hmem p]
      constructor
      · rintro ⟨e', he', h1, h2, h3⟩
        exact ⟨e', List.mem_cons_of_mem _ he', h1, h2, h3⟩
      · rintro ⟨e', he', h1, h2, h3⟩
        rcases List.mem_cons.mp he' with rfl | hmem'
        · exact absurd hdot h1
        · exact ⟨e', hmem', h1, h2, h3⟩
    · by_cases hsuf : suffix.isSuffixOf e.name = true
      · have hregf : e.isRegularFile = true := hreg e (List.mem_cons_self _ _) hdot hsuf
        refine ⟨(dir ++ str "/" ++ e.name) :: l,
          by simp [gatherLoop, hdot, hsuf, hregf, hl, Except.map], ?_⟩
        intro p
        rw [List.mem_cons, hmem p]
        constructor
        · rintro (rfl | ⟨e', he', h1, h2, h3⟩)
          · exact ⟨e, List.mem_cons_self _ _, hdot, hsuf, rfl⟩
          · exact ⟨e', List.mem_cons_of_mem _ he', h1, h2, h3⟩
        · rintro ⟨e', he', h1, h2, h3⟩
          rcases List.mem_cons.mp he' with rfl | hmem'
          · exact Or.inl h3
          · exact Or.inr ⟨e', hmem', h1, h2, h3⟩
      · refine ⟨l, by simp [gatherLoop, hdot, hsuf, hl], ?_⟩
        intro p
        rw [hmem p]
        constructor
        · rintro ⟨e', he', h1, h2, h3⟩
          exact ⟨e', List.mem_cons_of_mem _ he', h1, h2, h3⟩
        · rintro ⟨e', he', h1, h2, h3⟩
          rcases List.mem_cons.mp he' with rfl | hmem'
          · exact absurd h2 hsuf
          · exact ⟨e', hmem', h1, h2, h3⟩

/-- C2 (amended): for an accessible include directory whose non-hidden
suffix-matching entries are all regular files, the set of extra
configuration files is exactly the entries whose names do not start
with a dot and end with `.conf` under **case-sensitive** comparison
(the claim said case-insensitive), each prefixed `directory + "/"``,
and the resulting list is case-insensitively sorted by the
POSIX-locale-independent (ASCII case-fold) comparator, so that
`10-a.conf` sorts before `2-b.conf` (string, not numeric, order). -/
theorem c2_amended (dir : Str) (entries : List DirEnt)
    (hdir : dir ≠ [])
    (hreg : ∀ e ∈ entries, e.name.head? ≠ some '.' →
      (str ".conf").isSuffixOf e.name = true → e.isRegularFile = true) :
    ∃ out, gatherIncludes dir (str ".conf") entries = .ok out
      ∧ (∀ p, p ∈ out ↔ ∃ e ∈ entries, e.name.head? ≠ some '.'
            ∧ (str ".conf").isSuffixOf e.name = true ∧ p = dir ++ str "/" ++ e.name)
      ∧ ciSorted out := by
  obtain ⟨l, hl, hmem⟩ := gatherLoop_ok dir (str ".conf") entries hreg
  refine ⟨sortCI l, ?_, ?_, ciSorted_sortCI l⟩
  · simp [gatherIncludes, hdir, hl, Except.map]
  · intro p
    rw [mem_sortCI, hmem]

/-- C2 amended witness: `2-b.conf` and `10-a.conf` are both included,
in the order `10-a.conf` before `2-b.conf`; `notes.txt` is not. -/
theorem c2_witness :
    (∃ out, gatherIncludes (str "dir") (str ".conf") entriesOrd = .ok out
      ∧ (∀ p, p ∈ out ↔ ∃ e ∈ entriesOrd, e.name.head? ≠ some '.'
            ∧ (str ".conf").isSuffixOf e.name = true ∧ p = str "dir" ++ str "/" ++ e.name)
      ∧ ciSorted out)
    ∧ gatherIncludes (str "dir") (str ".conf") entriesOrd
        = .ok [str "dir/10-a.conf", str "dir/2-b.conf"] :=
  ⟨c2_amended (str "dir") entriesOrd (by decide) (by decide), by rfl⟩

/-! Lemmas for the serialize-then-parse round trip (C8). -/

theorem trimRight_concat_nonspace (x : Str) (c : Char) (h : isSpaceChar c = false) :
    trimRight (x ++ [c]) = x ++ [c] := by
  simp [trimRight, List.dropWhile, h]

theorem findSub_hash_head (t : Str) : findSub ('#' :: t) (str "#") = some 0 := by
  have hs : str "#" = ['#'] := rfl
  rw [hs, findSub]
  simp [List.isPrefixOf]

theorem parseOne_empty_line (st : ArgvMap) (parseOnly : Str) (lax : Bool) :
    parseOne st (str "--") parseOnly lax = .ok st := by
  have hr : recognizeArg (str "--") = .setting [] [] false := by decide
  simp [parseOne, hr, applySetting, trim, trimRight, trimLeft]

theorem commentLine_skip (st : ArgvMap) (parseOnly : Str) (lax : Bool)
    (line : Str) (rest : List Str)
    (h1 : trimRight line = line) (h2 : line.getLast? ≠ some '\\')
    (h3 : commentStrip line = []) :
    processLines parseOnly lax st [] (line :: rest)
      = processLines parseOnly lax st [] rest := by
  rw [processLines]
  simp only [h1, h2, List.nil_append]
  rw [if_neg (by simp [h2]), h3]
  have : stripLeadingIn (str " \t\r\n") (trimRight []) = [] := rfl
  rw [this, List.append_nil, parseOne_empty_line]

theorem bannerLine_cons (now : Str) :
    bannerLine now
      = '#' :: (str " Autogenerated configuration file based on running instance ("
          ++ (now ++ str ")")) := by
  simp [bannerLine, str]

theorem bannerLine_closed_paren (now : Str) :
    bannerLine now
      = (str "# Autogenerated configuration file based on running instance (" ++ now)
          ++ [')'] := by
  simp [bannerLine, str]

theorem bannerLine_trimRight (now : Str) : trimRight (bannerLine now) = bannerLine now := by
  rw [bannerLine_closed_paren]
  exact trimRight_concat_nonspace _ _ (by decide)

theorem bannerLine_getLast (now : Str) : (bannerLine now).getLast? = some ')' := by
  rw [bannerLine_closed_paren]
  exact List.getLast?_concat _

theorem bannerLine_commentStrip (now : Str) : commentStrip (bannerLine now) = [] := by
  rw [commentStrip, bannerLine_cons, findSub_hash_head]
  simp

theorem bannerLine_no_newline (now : Str) (h : '\n' ∉ now) : '\n' ∉ bannerLine now := by
  rw [bannerLine]
  intro hm
  rcases List.mem_append.mp hm with hm' | hm'
  · rcases List.mem_append.mp hm' with hm'' | hm''
    · exact absurd hm'' (by decide)
    · exact h hm''
  · exact absurd hm' (by decide)

theorem splitPhysLines_line (a rest : Str) (h : '\n' ∉ a) :
    splitPhysLines (a ++ '\n' :: rest) = a :: splitPhysLines rest := by
  induction a with
  | nil => simp [splitPhysLines]
  | cons c t ih =>
    have hc : c ≠ '\n' := fun e => h (e ▸ List.mem_cons_self _ _)
    have ht : '\n' ∉ t := fun m => h (List.mem_cons_of_mem _ m)
    rw [List.cons_append, splitPhysLines]
    · rw [ih ht]
    · exact hc

theorem splitPhysLines_joinLines (L : List Str) (h : ∀ l ∈ L, '\n' ∉ l) :
    splitPhysLines (joinLines L) = L := by
  induction L with
  | nil => rfl
  | cons l L' ih =>
    have hl : '\n' ∉ l := h l (List.mem_cons_self _ _)
    have hL' : ∀ l' ∈ L', '\n' ∉ l' := fun l' m => h l' (List.mem_cons_of_mem _ m)
    have : joinLines (l :: L') = l ++ '\n' :: joinLines L' := by
      simp [joinLines, str]
    rw [this, splitPhysLines_line _ _ hl, ih hL']

theorem joinLines_append (a b : List Str) :
    joinLines (a ++ b) = joinLines a ++ joinLines b := by
  simp [joinLines]

theorem unknownDump_joinLines (l : List (Str × Str)) :
    unknownDump true false l
      = joinLines ((l.filterMap (fun p => if p.2 = [] then none else some p)).map
          (fun q => q.1 ++ str "=" ++ q.2)) := by
  induction l with
  | nil => rfl
  | cons p rest ih =>
    obtain ⟨u, w⟩ := p
    by_cases hw : w = []
    · subst hw
      simp [unknownDump, formatOne_running_diff, ih]
    · simp [unknownDump, formatOne_running_diff, hw, Ne.symm hw, ih, joinLines]

theorem specDiffBody_gen (st : ArgvMap) (l : List (Str × Str)) :
    (l.map (fun p =>
        if typeGet st p.1 = str "Command" ∨ p.1 = ignoreKey then []
        else specDiffLine st p.1)).flatten
      = joinLines ((l.filterMap (fun p =>
          if typeGet st p.1 = str "Command" ∨ p.1 = ignoreKey
              ∨ defaultGet st p.1 = paramGet st p.1 then none
          else some (p.1, paramGet st p.1))).map
            (fun q => q.1 ++ str "=" ++ q.2)) := by
  induction l with
  | nil => rfl
  | cons p rest ih =>
    simp only [List.map_cons, List.filterMap_cons, List.flatten_cons]
    by_cases h1 : typeGet st p.1 = str "Command" ∨ p.1 = ignoreKey
    · have h2 : (if typeGet st p.1 = str "Command" ∨ p.1 = ignoreKey
            ∨ defaultGet st p.1 = paramGet st p.1 then (none : Option (Str × Str))
          else some (p.1, paramGet st p.1)) = none := by
        rcases h1 with h | h
        · rw [if_pos (Or.inl h)]
        · rw [if_pos (Or.inr (Or.inl h))]
      rw [if_pos h1, h2, ih]
      simp
    · by_cases h3 : defaultGet st p.1 = paramGet st p.1
      · have h2 : (if typeGet st p.1 = str "Command" ∨ p.1 = ignoreKey
              ∨ defaultGet st p.1 = paramGet st p.1 then (none : Option (Str × Str))
            else some (p.1, paramGet st p.1)) = none := by
          rw [if_pos (Or.inr (Or.inr h3))]
        have h5 : specDiffLine st p.1 = [] := by simp [specDiffLine, h3]
        rw [if_neg h1, h5, h2, ih]
        simp
      · have h4 : ¬(typeGet st p.1 = str "Command" ∨ p.1 = ignoreKey
            ∨ defaultGet st p.1 = paramGet st p.1) := by tauto
        rw [if_neg h1, if_neg h4]
        simp only [List.map_cons, joinLines, List.flatten_cons]
        rw [← joinLines, ← ih]
        simp [specDiffLine, h3]

theorem specDiffBody_joinLines (st : ArgvMap) :
    specDiffBody st
      = joinLines ((st.helpmap.filterMap (fun p =>
          if typeGet st p.1 = str "Command" ∨ p.1 = ignoreKey
              ∨ defaultGet st p.1 = paramGet st p.1 then none
          else some (p.1, paramGet st p.1))).map
            (fun q => q.1 ++ str "=" ++ q.2)) :=
  specDiffBody_gen st st.helpmap

theorem specDiffLine_head_joinLines (st : ArgvMap) :
    specDiffLine st ignoreKey
      = joinLines ((if defaultGet st ignoreKey = paramGet st ignoreKey then []
          else [(ignoreKey, paramGet st ignoreKey)]).map
            (fun q => q.1 ++ str "=" ++ q.2)) := by
  by_cases h : defaultGet st ignoreKey = paramGet st ignoreKey <;>
    simp [specDiffLine, h, joinLines]

theorem rtLines_render (st : ArgvMap) :
    specDiffLine st ignoreKey ++ specDiffBody st
        ++ unknownDump true false st.d_unknownParams
      = joinLines (rtLines st) := by
  rw [rtLines, rtPairs, List.map_append, List.map_append, joinLines_append,
    joinLines_append, specDiffLine_head_joinLines st, specDiffBody_joinLines st,
    unknownDump_joinLines]

theorem bannerRunning_eq (now : Str) :
    bannerRunning now = bannerLine now ++ str "\n\n" := by
  simp [bannerRunning, bannerLine, str]

theorem configstring_diff_eq (st : ArgvMap) (now : Str)
    (hdef : ∀ p ∈ st.helpmap, typeGet st p.1 ≠ str "Command" → p.1 ≠ ignoreKey →
      (mapFind st.defaultmap p.1).isSome = true) :
    configstring st true false now
      = .ok (joinLines (bannerLine now :: [] :: rtLines st)) := by
  rw [configstring, configLoop_running st false st.helpmap hdef]
  simp only [if_true]
  have hfo : formatOne true false ignoreKey (helpGet st ignoreKey) (defaultGet st ignoreKey)
      (paramGet st ignoreKey) = specDiffLine st ignoreKey := by
    rw [formatOne_running_diff, specDiffLine]
  have hjoin : joinLines (bannerLine now :: [] :: rtLines st)
      = bannerLine now ++ str "\n" ++ (str "\n" ++ joinLines (rtLines st)) := by
    simp [joinLines]
  rw [hjoin, ← rtLines_render st, bannerRunning_eq]
  have hbody : (List.map (fun p =>
      if typeGet st p.1 = str "Command" ∨ p.1 = ignoreKey then []
      else if false = true then specFullLine st p.1 p.2 else specDiffLine st p.1)
        st.helpmap).flatten = specDiffBody st := by
    rw [specDiffBody]
    congr 1
  rw [hfo, hbody]
  have hnn : str "\n\n" = str "\n" ++ str "\n" := rfl
  rw [hnn]
  simp [List.append_assoc]

theorem paramGet_congr (stCur st : ArgvMap)
    (hinv : ∀ n, mapFind stCur.d_params n = mapFind st.d_params n) (k : Str) :
    paramGet stCur k = paramGet st k := by
  rw [paramGet, paramGet, hinv k]

theorem processRt (st : ArgvMap) (lax : Bool) (L : List (Str × Str)) :
    ∀ (stCur : ArgvMap),
    (∀ n, mapFind stCur.d_params n = mapFind st.d_params n) →
    (∀ q ∈ L, rtLineOk q.1 q.2
       ∧ (mapFind st.d_params q.1 = some q.2
          ∨ (mapFind st.d_params q.1 = none
             ∧ q.1 ∈ stringtok (paramGet st ignoreKey) (str " ,\t\n\r")))) →
    ∃ st', processLines [] lax stCur [] (L.map (fun q => q.1 ++ str "=" ++ q.2)) = .ok st'
      ∧ ∀ n, mapFind st'.d_params n = mapFind st.d_params n := by
  induction L with
  | nil =>
    intro stCur hinv _
    exact ⟨stCur, rfl, hinv⟩
  | cons q L' ih =>
    intro stCur hinv hq
    obtain ⟨hok, hcase⟩ := hq q (List.mem_cons_self _ _)
    obtain ⟨hne, htrim, hnl, htr, hlast, hcs, hsl, hslv, hrec⟩ := hok
    have hL' : ∀ q' ∈ L', rtLineOk q'.1 q'.2
        ∧ (mapFind st.d_params q'.1 = some q'.2
           ∨ (mapFind st.d_params q'.1 = none
              ∧ q'.1 ∈ stringtok (paramGet st ignoreKey) (str " ,\t\n\r"))) :=
      fun q' hq' => hq q' (List.mem_cons_of_mem _ hq')
    have hcond : ¬(trimRight (q.1 ++ str "=" ++ q.2) ≠ []
        ∧ (trimRight (q.1 ++ str "=" ++ q.2)).getLast? = some '\\') := by
      rw [htr]
      intro hc
      exact hlast hc.2
    have hstep : ∀ (s : ArgvMap),
        processLines [] lax s []
            ((q.1 ++ str "=" ++ q.2) :: L'.map (fun p => p.1 ++ str "=" ++ p.2))
          = match parseOne s (str "--" ++ (q.1 ++ str "=" ++ q.2)) [] lax with
            | .error e => .error e
            | .ok s' => processLines [] lax s' [] (L'.map (fun p => p.1 ++ str "=" ++ p.2)) := by
      intro s
      rw [processLines, if_neg hcond, htr, List.nil_append, hcs, htr, hsl]
    rcases hcase with hdecl | ⟨hund, hmem⟩
    · have hdecl' : mapFind stCur.d_params q.1 = some q.2 := by
        rw [hinv q.1]
        exact hdecl
      have happ : parseOne stCur (str "--" ++ (q.1 ++ str "=" ++ q.2)) [] lax
          = .ok { stCur with d_params := mapInsert stCur.d_params q.1 q.2
                             d_cleared := setInsert q.1 stCur.d_cleared } := by
        simp only [parseOne, hrec, htrim]
        simp [applySetting, hne, hdecl', hslv]
      have hinv' : ∀ n, mapFind (mapInsert stCur.d_params q.1 q.2) n
          = mapFind st.d_params n := by
        intro n
        by_cases hn : n = q.1
        · subst hn
          rw [mapFind_mapInsert_self, hdecl]
        · rw [mapFind_mapInsert_ne _ _ _ _ hn, hinv n]
      obtain ⟨st', hrun, hfin⟩ := ih
        { stCur with d_params := mapInsert stCur.d_params q.1 q.2
                     d_cleared := setInsert q.1 stCur.d_cleared } hinv' hL'
      refine ⟨st', ?_, hfin⟩
      rw [List.map_cons, hstep stCur, happ]
      simpa using hrun
    · have hund' : mapFind stCur.d_params q.1 = none := by
        rw [hinv q.1]
        exact hund
      have hpg : paramGet stCur ignoreKey = paramGet st ignoreKey :=
        paramGet_congr stCur st hinv ignoreKey
      have happ : parseOne stCur (str "--" ++ (q.1 ++ str "=" ++ q.2)) [] lax
          = .ok { stCur with
                    d_unknownParams := mapInsert stCur.d_unknownParams q.1 q.2 } := by
        simp only [parseOne, hrec, htrim]
        simp [applySetting, hne, hund', hslv, hpg, hmem]
      obtain ⟨st', hrun, hfin⟩ := ih
        { stCur with d_unknownParams := mapInsert stCur.d_unknownParams q.1 q.2 }
        hinv hL'
      refine ⟨st', ?_, hfin⟩
      rw [List.map_cons, hstep stCur, happ]
      simpa using hrun

/-- C8 (amended): for a registry whose declared non-Command
parameters all have defaults and whose rendered diff-dump lines are
line-safe — each rendered `name=value` survives the file-loader line
processing unchanged and re-parses as a plain assignment, each
rendered name either being declared with exactly that current value
or being an undeclared name on the current ignore-list — feeding the
output of `configstring(true, false)` back through the file-loader
line processing and the parser succeeds and reproduces the stored
value of every parameter (the claim, quantified over all reachable
states, fails: reachable values can contain comment-introducing `#`,
trailing whitespace, or a trailing backslash, which the file loader
strips). -/
theorem c8_amended (st : ArgvMap) (now : Str) (lax : Bool)
    (hnow : '\n' ∉ now)
    (hdef : ∀ p ∈ st.helpmap, typeGet st p.1 ≠ str "Command" → p.1 ≠ ignoreKey →
      (mapFind st.defaultmap p.1).isSome = true)
    (hsafe : ∀ q ∈ rtPairs st, rtLineOk q.1 q.2
       ∧ (mapFind st.d_params q.1 = some q.2
          ∨ (mapFind st.d_params q.1 = none
             ∧ q.1 ∈ stringtok (paramGet st ignoreKey) (str " ,\t\n\r")))) :
    ∃ out st', configstring st true false now = .ok out
      ∧ processLines [] lax st [] (splitPhysLines out) = .ok st'
      ∧ ∀ n, mapFind st'.d_params n = mapFind st.d_params n := by
  have hout := configstring_diff_eq st now hdef
  have hlines : ∀ l ∈ (bannerLine now :: [] :: rtLines st), '\n' ∉ l := by
    intro l hl
    rcases List.mem_cons.mp hl with rfl | hl'
    · exact bannerLine_no_newline now hnow
    · rcases List.mem_cons.mp hl' with rfl | hl''
      · simp
      · obtain ⟨q, hqmem, rfl⟩ := List.mem_map.mp hl''
        obtain ⟨⟨_, _, hnl, _⟩, _⟩ := hsafe q hqmem
        intro hmem
        rcases List.mem_append.mp hmem with hm | hm
        · rcases List.mem_append.mp hm with hm' | hm'
          · exact hnl (List.mem_append.mpr (Or.inl hm'))
          · exact absurd hm' (by decide)
        · exact hnl (List.mem_append.mpr (Or.inr hm))
  have hsplit : splitPhysLines (joinLines (bannerLine now :: [] :: rtLines st))
      = bannerLine now :: [] :: rtLines st :=
    splitPhysLines_joinLines _ hlines
  have hskip1 : processLines [] lax st [] (bannerLine now :: [] :: rtLines st)
      = processLines [] lax st [] ([] :: rtLines st) :=
    commentLine_skip st [] lax (bannerLine now) _ (bannerLine_trimRight now)
      (by rw [bannerLine_getLast]; simp) (bannerLine_commentStrip now)
  have hskip2 : processLines [] lax st [] ([] :: rtLines st)
      = processLines [] lax st [] (rtLines st) :=
    commentLine_skip st [] lax [] _ rfl (by simp) rfl
  obtain ⟨st', hrun, hfin⟩ := processRt st lax (rtPairs st) st (fun _ => rfl) hsafe
  exact ⟨_, st', hout, by rw [hsplit, hskip1, hskip2, rtLines]; exact hrun, hfin⟩

/-- C8 amended witness: the registry with the single changed
parameter `b = 3`. -/
theorem c8_witness :
    ∃ out st', configstring stateRTW true false (str "T") = .ok out
      ∧ processLines [] false stateRTW [] (splitPhysLines out) = .ok st'
      ∧ ∀ n, mapFind st'.d_params n = mapFind stateRTW.d_params n :=
  c8_amended stateRTW (str "T") false (by decide) (by decide) (by decide)

/-- C8 counterexample: the state reached by parsing the single
command-line token `--b=3 # comment` (so `b` holds `"3 # comment"`)
is a reachable registry whose declared parameters all have defaults,
yet re-parsing the diff dump through the file-loader line processing
strips the ` # comment` tail (a `#` preceded by whitespace starts a
comment in a file line), leaving `b = "3"`: serialize-then-parse is
not the identity on this reachable state. -/
theorem c8_counterexample :
    ∃ st out st',
      parse stateRT0 [str "--b=3 # comment"] false = .ok st
      ∧ configstring st true false (str "T") = .ok out
      ∧ processLines [] false st [] (splitPhysLines out) = .ok st'
      ∧ paramGet st (str "b") = str "3 # comment"
      ∧ paramGet st' (str "b") = str "3"
      ∧ paramGet st' (str "b") ≠ paramGet st (str "b") := by
  exact ⟨_, _, _, rfl, rfl, rfl, rfl, rfl, by decide⟩

/-- C2 counterexample: `A.CONF` ends with `.conf` only under
case-insensitive comparison and is a regular file, and the hidden
regular file `.hidden.conf` ends with `.conf` outright; the claim
therefore predicts both in the parsed set, but `gatherIncludes`
returns only `dir/b.conf`. -/
theorem c2_counterexample :
    ciEndsWith (str "A.CONF") (str ".conf") = true
    ∧ ciEndsWith (str ".hidden.conf") (str ".conf") = true
    ∧ (∀ e ∈ entriesCex, e.isRegularFile = true)
    ∧ gatherIncludes (str "dir") (str ".conf") entriesCex = .ok [str "dir/b.conf"] := by
  exact ⟨by decide, by decide, by decide, by rfl⟩

end PdnsArgs
